import Mathlib

/-!
Verification of the data-cleaning and aggregation core of the music-consumption
dashboard (`app.py`).  Every definition below is a shallow embedding of the
corresponding Python code: pandas tables become association lists of
column-name/value pairs, per-row operations become Lean functions, numeric
cells become `ℚ`, and fallible pandas operations (column selection with a
missing label, `sklearn` fitting with no samples) become `Except`.
-/

/-- Embedding of line 48-51 of `app.py`:
`pd.cut(df['EDAD'], bins=[12, 17, 29, 49, 64, 100], labels=[...], right=True)`.
With `right=True` the bins are the half-open intervals (12,17], (17,29],
(29,49], (49,64], (64,100]; a value falling in no bin gets `NaN`
(here `none`). -/
def age_group (a : ℤ) : Option String :=
  if 12 < a ∧ a ≤ 17 then some "13-17"
  else if 17 < a ∧ a ≤ 29 then some "18-29"
  else if 29 < a ∧ a ≤ 49 then some "30-49"
  else if 49 < a ∧ a ≤ 64 then some "50-64"
  else if 64 < a ∧ a ≤ 100 then some "65+"
  else none

/-- The five age-band labels of `app.py` line 50. -/
def ageLabels : List String := ["13-17", "18-29", "30-49", "50-64", "65+"]

/-- A raw table cell, as it stands after `pd.read_csv`: either a cell that
parses numerically (`num`), a non-numeric token (`text`), or a missing value
(`missing`).  `pd.to_numeric(..., errors='coerce')` maps the latter two to
`NaN`, modelled as `none`. -/
inductive RawCell where
  | num (q : ℚ)
  | text (s : String)
  | missing
deriving DecidableEq

/-- Embedding of `pd.to_numeric(col, errors='coerce')` on one cell. -/
def toNumericCoerce : RawCell → Option ℚ
  | .num q => some q
  | .text _ => none
  | .missing => none

/-- Embedding of lines 40-41 of `app.py`:
`pd.to_numeric(df[col], errors='coerce').fillna(0)` on one cell. -/
def coerceGenre (c : RawCell) : ℚ :=
  (toNumericCoerce c).getD 0

/-- The column-name marker of atomic genre-signal columns (`app.py` line 39:
`col.startswith('MUSICA8_')`). -/
def genreColTag : String := "MUSICA8_"

/-- One raw table row: column name ↦ raw cell. -/
abbrev RawRow := List (String × RawCell)

/-- Cell of a raw row at a named column (`df[col]` for one row). -/
def getRawCol : RawRow → String → Option RawCell
  | [], _ => none
  | p :: t, c => if p.1 = c then some p.2 else getRawCol t c

/-- Embedding of lines 39-41 of `app.py`: every column whose name starts with
`MUSICA8_` is numerically coerced with fallback 0; other columns are left
untouched.  The operation is cell-wise: each output cell depends only on the
same-named input cell of the same row. -/
def cleanGenreRow (r : RawRow) : RawRow :=
  r.map (fun p =>
    if p.1.startsWith genreColTag then (p.1, RawCell.num (coerceGenre p.2)) else p)

/-- One normalized table row: column name ↦ numeric value. -/
abbrev Row := List (String × ℚ)

/-- Value of a normalized row at a named column. -/
def getCol : Row → String → Option ℚ
  | [], _ => none
  | p :: t, c => if p.1 = c then some p.2 else getCol t c

/-- Whether the row has a column named `c`. -/
def hasCol : Row → String → Bool
  | [], _ => false
  | p :: t, c => if p.1 = c then true else hasCol t c

/-- Overwrite every entry of column `c` with value `v`, keeping its place. -/
def replaceCol : Row → String → ℚ → Row
  | [], _, _ => []
  | p :: t, c, v => (if p.1 = c then (c, v) else p) :: replaceCol t c v

/-- Column assignment `df[c] = v` restricted to one row: overwrite the column
if present, append it otherwise. -/
def setCol (r : Row) (c : String) (v : ℚ) : Row :=
  if hasCol r c then replaceCol r c v else r ++ [(c, v)]

/-- Embedding of `df[cols].sum(axis=1)` for one row: selecting a column label
absent from the table raises `KeyError` in pandas, so the sum is fallible and
reports the first missing label. -/
def sumCols (r : Row) : List String → Except String ℚ
  | [] => .ok 0
  | c :: cs =>
    match getCol r c with
    | none => .error c
    | some v =>
      match sumCols r cs with
      | .error e => .error e
      | .ok t => .ok (v + t)

/-- Embedding of the loop at lines 64-68 of `app.py`: for each genre category,
append the row-wise sum of its constituent columns and the binary indicator
`(total > 0).astype(int)`. -/
def aggregateGroups : List (String × List String) → Row → Except String Row
  | [], r => .ok r
  | gc :: rest, r =>
    match sumCols r gc.2 with
    | .error e => .error e
    | .ok t =>
        aggregateGroups rest
          (setCol (setCol r gc.1 t) ("CAT_" ++ gc.1) (if 0 < t then 1 else 0))

/-- The `GENRE_CATEGORIES` configuration dictionary of `app.py` lines 22-28. -/
def GENRE_CATEGORIES : List (String × List String) :=
  [("MÚSICA URBANA", ["MUSICA8_1", "MUSICA8_2", "MUSICA8_3", "MUSICA8_13"]),
   ("ROCK Y METAL", ["MUSICA8_4", "MUSICA8_5", "MUSICA8_6"]),
   ("FOLKLORE Y TANGO", ["MUSICA8_7", "MUSICA8_8"]),
   ("POP Y ELECTRÓNICA", ["MUSICA8_9", "MUSICA8_10"]),
   ("CUMBIA", ["MUSICA8_11", "MUSICA8_12"])]

/-- Disjointness of the columns written for two distinct genre groups. -/
def groupsDisjoint (p q : String × List String) : Prop :=
  p.1 ≠ q.1 ∧ p.1 ≠ "CAT_" ++ q.1 ∧ "CAT_" ++ p.1 ≠ q.1 ∧
    "CAT_" ++ p.1 ≠ "CAT_" ++ q.1

instance : DecidableRel groupsDisjoint := fun p q => by
  unfold groupsDisjoint
  infer_instance

/-- Boolean test for the `Except.error` case. -/
def isErr {ε α : Type} : Except ε α → Bool
  | .error _ => true
  | .ok _ => false

/-- A raw survey record, restricted to the fields the age/rock analyses read:
the `EDAD` cell, the three `ROCK Y METAL` constituent cells
(`MUSICA8_4`, `MUSICA8_5`, `MUSICA8_6`) and the `REGION` text. -/
structure RawRecord where
  edad : RawCell
  m4 : RawCell
  m5 : RawCell
  m6 : RawCell
  region : String
deriving DecidableEq

/-- A record of the cleaned table `df`, restricted to the same fields:
integer `EDAD`, the derived `GRUPOS_EDAD` band, the `ROCK Y METAL` total and
its `CAT_ROCK Y METAL` indicator, and the trimmed `REGION`. -/
structure Record where
  edad : ℤ
  grupo : Option String
  rockTotal : ℚ
  catRock : ℚ
  region : String
deriving DecidableEq

/-- Embedding of numpy `astype(int)`: truncation toward zero. -/
def truncQ (q : ℚ) : ℤ := q.num.tdiv q.den

/-- Embedding of lines 44-57 and 64-68 of `app.py` for a single record:
`EDAD` is numerically coerced, a record with unparseable `EDAD` is dropped
(`df.dropna(subset=['EDAD'])`), the survivors get `astype(int)` ages, the
derived `GRUPOS_EDAD` band, the trimmed `REGION`, and the rock total and
indicator. -/
def cleanOne (r : RawRecord) : Option Record :=
  match toNumericCoerce r.edad with
  | none => none
  | some q =>
      let a := truncQ q
      let tot := coerceGenre r.m4 + coerceGenre r.m5 + coerceGenre r.m6
      some { edad := a, grupo := age_group a, rockTotal := tot,
             catRock := if 0 < tot then 1 else 0, region := r.region.trim }

/-- The cleaned analysis table `df` produced by `load_and_clean_data`. -/
def loadAndClean (raw : List RawRecord) : List Record :=
  raw.filterMap cleanOne

/-- Line 110 of `app.py`: `total_registros = len(df)` on the cleaned table. -/
def totalRegistros (raw : List RawRecord) : ℕ :=
  (loadAndClean raw).length

/-- The rows contributing to the group of key `g` in
`df.groupby('GRUPOS_EDAD', observed=True)`: pandas `groupby` drops rows whose
key is `NaN`. -/
def groupRows (tbl : List Record) (g : String) : List Record :=
  tbl.filter (fun x => x.grupo == some g)

/-- The group keys of `df.groupby('GRUPOS_EDAD', observed=True)`: the distinct
non-null values present in the key column. -/
def groupKeys (tbl : List Record) : List String :=
  (tbl.filterMap (fun x => x.grupo)).dedup

/-- Line 145 of `app.py` restricted to the rock column:
`df.groupby('GRUPOS_EDAD', observed=True)['ROCK Y METAL'].sum()` at key `g`. -/
def groupedSumRock (tbl : List Record) (g : String) : ℚ :=
  ((groupRows tbl g).map (·.rockTotal)).sum

/-- Lines 175 and 292 of `app.py`:
`df.groupby('GRUPOS_EDAD', observed=True)['CAT_ROCK Y METAL'].mean() * 100`
at key `g`. -/
def rockByAge (tbl : List Record) (g : String) : ℚ :=
  ((groupRows tbl g).map (·.catRock)).sum / ((groupRows tbl g).length : ℚ) * 100

/-- Row of the five genre-group total columns, the value columns of
`df.groupby('REGION')[genre_group_columns].sum()`. -/
structure GenreVec where
  urbana : ℚ
  rock : ℚ
  folklore : ℚ
  pop : ℚ
  cumbia : ℚ
deriving DecidableEq

/-- Componentwise addition of genre-total rows. -/
def GenreVec.add (a b : GenreVec) : GenreVec :=
  ⟨a.urbana + b.urbana, a.rock + b.rock, a.folklore + b.folklore,
   a.pop + b.pop, a.cumbia + b.cumbia⟩

/-- The all-zero genre-total row. -/
def GenreVec.null : GenreVec := ⟨0, 0, 0, 0, 0⟩

/-- Row total `genre_region.sum(axis=1)` for one grouped row. -/
def GenreVec.rowTotal (a : GenreVec) : ℚ :=
  a.urbana + a.rock + a.folklore + a.pop + a.cumbia

/-- Line 156 of `app.py`: `df.groupby('REGION')[genre_group_columns].sum()`
at region key `reg`, over rows given as (region, genre-totals) pairs. -/
def genreRegionSum (rows : List (String × GenreVec)) (reg : String) : GenreVec :=
  ((rows.filter (fun p => p.1 == reg)).map Prod.snd).foldr GenreVec.add GenreVec.null

/-- Line 157 of `app.py`:
`genre_region.div(genre_region.sum(axis=1), axis=0) * 100` for one grouped
row.  Division by a zero row-total is total here (`x / 0 = 0` in `ℚ`),
modelling the pandas placeholder (`NaN`) by the placeholder `0`. -/
def percentOfRowTotal (a : GenreVec) : GenreVec :=
  ⟨a.urbana / a.rowTotal * 100, a.rock / a.rowTotal * 100,
   a.folklore / a.rowTotal * 100, a.pop / a.rowTotal * 100,
   a.cumbia / a.rowTotal * 100⟩

/-- The percentage row of region `reg` in `genre_region_percent`. -/
def genreRegionPercent (rows : List (String × GenreVec)) (reg : String) : GenreVec :=
  percentOfRowTotal (genreRegionSum rows reg)

/-- The `age_group_mapping` dictionary of `app.py` lines 297-302: the fixed
x-midpoints of the four bands used for the regression; `'13-17'` has no
entry. -/
def age_group_mapping : List (String × ℚ) :=
  [("18-29", 47 / 2), ("30-49", 79 / 2), ("50-64", 57), ("65+", 70)]

/-- Lines 303-312 of `app.py`: one regression point per mapped band present in
`rock_by_age.index`, pairing the fixed midpoint with the band's preference
percentage. -/
def regressionData (tbl : List Record) : List (ℚ × ℚ) :=
  age_group_mapping.filterMap (fun p =>
    if p.1 ∈ groupKeys tbl then some (p.2, rockByAge tbl p.1) else none)

/-- Lines 318-325 of `app.py`: `sklearn.LinearRegression().fit` followed by
reading `intercept_` and `coef_[0]`.  `sklearn` centers the data and solves
least squares; with an empty sample it raises (here `.error`), and when the
centered x-column is identically zero (all x equal, e.g. a single point) the
minimum-norm solution has slope 0 and intercept equal to the mean of y. -/
def fitOLS (pts : List (ℚ × ℚ)) : Except String (ℚ × ℚ) :=
  if pts.length = 0 then .error "no samples" else
    let n : ℚ := (pts.length : ℚ)
    let xbar := (pts.map Prod.fst).sum / n
    let ybar := (pts.map Prod.snd).sum / n
    let sxx := (pts.map (fun p => (p.1 - xbar) * (p.1 - xbar))).sum
    let sxy := (pts.map (fun p => (p.1 - xbar) * (p.2 - ybar))).sum
    if sxx = 0 then .ok (ybar, 0)
    else .ok (ybar - sxy / sxx * xbar, sxy / sxx)

/-- Prediction `model.predict([[x]])[0]` of the fitted line `(intercept, slope)`. -/
def predictAt (m : ℚ × ℚ) (x : ℚ) : ℚ := m.1 + m.2 * x

/-- Line 355 of `app.py`: `df['EDAD'].mean()` over the cleaned table. -/
def meanEdad (tbl : List Record) : ℚ :=
  (tbl.map (fun x => (x.edad : ℚ))).sum / (tbl.length : ℚ)

/-- Line 356 of `app.py`: `edad_5_anos = edad_promedio_actual + 5`. -/
def edad5 (tbl : List Record) : ℚ := meanEdad tbl + 5

/-- Line 357 of `app.py`: the projected preference
`model.predict([[edad_5_anos]])[0]`, absent when the fit step failed. -/
def preferencia5 (tbl : List Record) : Except String ℚ :=
  (fitOLS (regressionData tbl)).map (fun m => predictAt m (edad5 tbl))

/-- Test fixture: a full normalized row carrying all thirteen atomic genre
columns, whose rock constituents sum to 3. -/
def rowA : Row :=
  [("MUSICA8_1", 1), ("MUSICA8_2", 0), ("MUSICA8_3", 0), ("MUSICA8_4", 1),
   ("MUSICA8_5", 2), ("MUSICA8_6", 0), ("MUSICA8_7", 0), ("MUSICA8_8", 0),
   ("MUSICA8_9", 0), ("MUSICA8_10", 0), ("MUSICA8_11", 0), ("MUSICA8_12", 0),
   ("MUSICA8_13", 0)]

/-- Test fixture: `rowA` with all ten group columns appended, the output of
one aggregation pass over `rowA`. -/
def rowAOut : Row :=
  rowA ++
  [("MÚSICA URBANA", 1), ("CAT_MÚSICA URBANA", 1),
   ("ROCK Y METAL", 3), ("CAT_ROCK Y METAL", 1),
   ("FOLKLORE Y TANGO", 0), ("CAT_FOLKLORE Y TANGO", 0),
   ("POP Y ELECTRÓNICA", 0), ("CAT_POP Y ELECTRÓNICA", 0),
   ("CUMBIA", 0), ("CAT_CUMBIA", 0)]

/-- Test fixture: `rowA` with the column `MUSICA8_5` entirely absent. -/
def rowMissing : Row :=
  [("MUSICA8_1", 1), ("MUSICA8_2", 0), ("MUSICA8_3", 0), ("MUSICA8_4", 1),
   ("MUSICA8_6", 0), ("MUSICA8_7", 0), ("MUSICA8_8", 0),
   ("MUSICA8_9", 0), ("MUSICA8_10", 0), ("MUSICA8_11", 0), ("MUSICA8_12", 0),
   ("MUSICA8_13", 0)]

/-- Test fixture: a raw row whose `MUSICA8_4` cell holds the valid numeric
token `-1`. -/
def rowNeg : RawRow :=
  [("MUSICA8_4", RawCell.num (-1)), ("MUSICA8_5", RawCell.text "ns/nc"),
   ("REGION", RawCell.text "Cuyo")]

/-- Test fixture: a raw record whose age cell is an unparseable token. -/
def rawBad : RawRecord :=
  { edad := .text "ns/nc", m4 := .num 1, m5 := .num 0, m6 := .num 0,
    region := "NOA" }

/-- Test fixture: three raw records — a parseable 25-year-old rock listener,
a record with unparseable age, and a parseable 130-year-old. -/
def rawSample : List RawRecord :=
  [{ edad := .num 25, m4 := .num 1, m5 := .num 2, m6 := .num 0,
     region := " Pampeana " },
   rawBad,
   { edad := .num 130, m4 := .num 0, m5 := .num 0, m6 := .num 0,
     region := "NEA" }]

/-- Test fixture: a cleaned record in the 18-29 band. -/
def recBand : Record :=
  { edad := 25, grupo := some "18-29", rockTotal := 3, catRock := 1,
    region := "Pampeana" }

/-- Test fixture: a cleaned record with no age band (age 130). -/
def recNull : Record :=
  { edad := 130, grupo := none, rockTotal := 1, catRock := 1,
    region := "NOA" }

/-- Test fixture: a cleaned table with one banded and one unclassified
record. -/
def tblSample : List Record := [recBand, recNull]

/-- Test fixture: a cleaned table whose only occupied band is 18-29, so the
regression receives a single point. -/
def tblOneBand : List Record := [recBand]

/-- Test fixture: region rows for the percentage summarizer. -/
def regionRows : List (String × GenreVec) :=
  [("Pampeana", ⟨1, 3, 0, 0, 0⟩), ("NOA", ⟨0, 0, 0, 0, 0⟩)]

/-- C1: the age-group derivation is a total partition of valid ages:
every integer age in [13,100] receives exactly one of the five labels, and
every integer age outside [13,100] receives no label (never an edge label). -/
theorem age_group_partition (a : ℤ) :
    (13 ≤ a → a ≤ 100 → age_group a ∈ ageLabels.map Option.some) ∧
    ((a < 13 ∨ 100 < a) → age_group a = none) ∧
    (∀ l₁ l₂, age_group a = some l₁ → age_group a = some l₂ → l₁ = l₂) := by
  refine ⟨?_, ?_, ?_⟩
  · intro h1 h2
    unfold age_group
    split_ifs <;> simp_all [ageLabels] <;> omega
  · intro h
    unfold age_group
    split_ifs <;> first | rfl | omega
  · intro l₁ l₂ h₁ h₂
    rw [h₁] at h₂
    exact Option.some_inj.mp h₂

/-- C1 witness: ages 17 and 100 receive a label, age 130 and age 12 receive
none. -/
theorem age_group_partition_check :
    age_group 17 ∈ ageLabels.map Option.some ∧
    age_group 100 ∈ ageLabels.map Option.some ∧
    age_group 130 = none ∧
    age_group 12 = none :=
  ⟨(age_group_partition 17).1 (by decide) (by decide),
   (age_group_partition 100).1 (by decide) (by decide),
   (age_group_partition 130).2.1 (Or.inr (by decide)),
   (age_group_partition 12).2.1 (Or.inl (by decide))⟩


theorem getCol_replaceCol_self (r : Row) (c : String) (v : ℚ)
    (h : hasCol r c = true) :
    getCol (replaceCol r c v) c = some v := by
  induction r with
  | nil => simp [hasCol] at h
  | cons p t ih =>
      by_cases hp : p.1 = c
      · simp [replaceCol, getCol, hp]
      · simp only [hasCol, if_neg hp] at h
        simp [replaceCol, getCol, hp, ih h]

theorem getCol_appendCol_self (r : Row) (c : String) (v : ℚ) :
    hasCol r c = false → getCol (r ++ [(c, v)]) c = some v := by
  induction r with
  | nil => simp [getCol]
  | cons p t ih =>
      intro h
      by_cases hp : p.1 = c
      · simp [hasCol, hp] at h
      · simp only [hasCol, if_neg hp] at h
        simp [getCol, hp, ih h]

theorem getCol_setCol_self (r : Row) (c : String) (v : ℚ) :
    getCol (setCol r c v) c = some v := by
  unfold setCol
  by_cases h : hasCol r c = true
  · rw [if_pos h]
    exact getCol_replaceCol_self r c v h
  · rw [if_neg h]
    exact getCol_appendCol_self r c v (by simpa using h)

theorem getCol_replaceCol_ne (r : Row) (c c' : String) (v : ℚ) (hne : c' ≠ c) :
    getCol (replaceCol r c v) c' = getCol r c' := by
  induction r with
  | nil => rfl
  | cons p t ih =>
      by_cases hp : p.1 = c
      · simp [replaceCol, getCol, hp, Ne.symm hne, ih]
      · simp [replaceCol, getCol, hp, ih]

theorem getCol_appendCol_ne (r : Row) (c c' : String) (v : ℚ) (hne : c' ≠ c) :
    getCol (r ++ [(c, v)]) c' = getCol r c' := by
  induction r with
  | nil => simp [getCol, Ne.symm hne]
  | cons p t ih =>
      by_cases hp : p.1 = c'
      · simp [getCol, hp]
      · simp [getCol, hp, ih]

theorem getCol_setCol_ne (r : Row) (c c' : String) (v : ℚ) (hne : c' ≠ c) :
    getCol (setCol r c v) c' = getCol r c' := by
  unfold setCol
  split
  · exact getCol_replaceCol_ne r c c' v hne
  · exact getCol_appendCol_ne r c c' v hne

theorem sumCols_congr (r₁ r₂ : Row) (cols : List String)
    (h : ∀ c ∈ cols, getCol r₁ c = getCol r₂ c) :
    sumCols r₁ cols = sumCols r₂ cols := by
  induction cols with
  | nil => rfl
  | cons c cs ih =>
      simp only [sumCols]
      rw [h c (List.mem_cons_self c cs),
        ih (fun d hd => h d (List.mem_cons_of_mem c hd))]

theorem sumCols_ok_isSome (r : Row) (cols : List String) (t : ℚ)
    (h : sumCols r cols = .ok t) :
    ∀ c ∈ cols, (getCol r c).isSome = true := by
  induction cols generalizing t with
  | nil => simp
  | cons c cs ih =>
      intro d hd
      simp only [sumCols] at h
      rcases hv : getCol r c with _ | v
      · rw [hv] at h
        exact absurd h (by simp)
      · rw [hv] at h
        rcases hs : sumCols r cs with e | t'
        · rw [hs] at h
          exact absurd h (by simp)
        · rcases List.mem_cons.mp hd with hdc | hdcs
          · rw [hdc, hv]
            rfl
          · exact ih t' hs d hdcs

theorem cat_ne_self (s : String) : "CAT_" ++ s ≠ s := by
  intro h
  have hlen := congrArg String.length h
  rw [String.length_append] at hlen
  have h4 : ("CAT_" : String).length = 4 := rfl
  omega

theorem aggregate_preserve (gs : List (String × List String)) :
    ∀ (r r' : Row), aggregateGroups gs r = .ok r' →
      ∀ c, (∀ p ∈ gs, c ≠ p.1 ∧ c ≠ "CAT_" ++ p.1) →
        getCol r' c = getCol r c := by
  induction gs with
  | nil =>
      intro r r' h c _
      simp only [aggregateGroups] at h
      cases h
      rfl
  | cons gc rest ih =>
      intro r r' h c hc
      simp only [aggregateGroups] at h
      rcases hs : sumCols r gc.2 with e | t
      · rw [hs] at h
        exact absurd h (by simp)
      · rw [hs] at h
        have hhead := hc gc (List.mem_cons_self gc rest)
        have htail : ∀ p ∈ rest, c ≠ p.1 ∧ c ≠ "CAT_" ++ p.1 :=
          fun p hp => hc p (List.mem_cons_of_mem gc hp)
        rw [ih _ r' h c htail, getCol_setCol_ne _ _ _ _ hhead.2,
          getCol_setCol_ne _ _ _ _ hhead.1]

theorem aggregate_indicator_core (gs : List (String × List String)) :
    ∀ (r r' : Row), aggregateGroups gs r = .ok r' →
      gs.Pairwise groupsDisjoint →
      (∀ p ∈ gs, ∀ c ∈ p.2, ∀ q ∈ gs, c ≠ q.1 ∧ c ≠ "CAT_" ++ q.1) →
      ∀ g cols, (g, cols) ∈ gs →
        ∃ t, sumCols r cols = .ok t ∧ getCol r' g = some t ∧
          getCol r' ("CAT_" ++ g) = some (if 0 < t then 1 else 0) := by
  induction gs with
  | nil =>
      intro r r' _ _ _ g cols hmem
      exact absurd hmem (List.not_mem_nil (g, cols))
  | cons gc rest ih =>
      intro r r' h hpair hconst g cols hmem
      simp only [aggregateGroups] at h
      rcases hs : sumCols r gc.2 with e | t₀
      · rw [hs] at h
        exact absurd h (by simp)
      · rw [hs] at h
        rcases List.mem_cons.mp hmem with hhead | htail
        · have hg : gc.1 = g := by rw [← hhead]
          have hcols : gc.2 = cols := by rw [← hhead]
          subst hg
          subst hcols
          refine ⟨t₀, hs, ?_, ?_⟩
          · have hpres : ∀ p ∈ rest, gc.1 ≠ p.1 ∧ gc.1 ≠ "CAT_" ++ p.1 := by
              intro p hp
              have := (List.pairwise_cons.mp hpair).1 p hp
              exact ⟨this.1, this.2.1⟩
            rw [aggregate_preserve rest _ r' h gc.1 hpres,
              getCol_setCol_ne _ _ _ _ (Ne.symm (cat_ne_self gc.1)),
              getCol_setCol_self]
          · have hpres : ∀ p ∈ rest,
                "CAT_" ++ gc.1 ≠ p.1 ∧ "CAT_" ++ gc.1 ≠ "CAT_" ++ p.1 := by
              intro p hp
              have := (List.pairwise_cons.mp hpair).1 p hp
              exact ⟨this.2.2.1, this.2.2.2⟩
            rw [aggregate_preserve rest _ r' h _ hpres, getCol_setCol_self]
        · have hpair' := (List.pairwise_cons.mp hpair).2
          have hconst' : ∀ p ∈ rest, ∀ c ∈ p.2, ∀ q ∈ rest,
              c ≠ q.1 ∧ c ≠ "CAT_" ++ q.1 := by
            intro p hp c hc q hq
            exact hconst p (List.mem_cons_of_mem gc hp) c hc q
              (List.mem_cons_of_mem gc hq)
          obtain ⟨t, hsum, hg, hcat⟩ := ih _ r' h hpair' hconst' g cols htail
          refine ⟨t, ?_, hg, hcat⟩
          rw [← hsum]
          refine sumCols_congr r _ cols ?_
          intro c hc
          have hne := hconst (g, cols) hmem c hc gc (List.mem_cons_self gc rest)
          rw [getCol_setCol_ne _ _ _ _ hne.2, getCol_setCol_ne _ _ _ _ hne.1]

theorem genre_pairwise_disjoint : GENRE_CATEGORIES.Pairwise groupsDisjoint := by
  decide

theorem genre_constituents_fresh :
    ∀ p ∈ GENRE_CATEGORIES, ∀ c ∈ p.2, ∀ q ∈ GENRE_CATEGORIES,
      c ≠ q.1 ∧ c ≠ "CAT_" ++ q.1 := by
  decide

/-- C2: for every record of the augmented table and every genre group, the
binary indicator column holds 1 exactly when the record's group-total column
is strictly positive, and 0 otherwise. -/
theorem genre_indicator_matches_total (r r' : Row)
    (h : aggregateGroups GENRE_CATEGORIES r = .ok r')
    (g : String) (cols : List String) (hg : (g, cols) ∈ GENRE_CATEGORIES) :
    ∃ t, getCol r' g = some t ∧
      getCol r' ("CAT_" ++ g) = some (if 0 < t then 1 else 0) ∧
      (getCol r' ("CAT_" ++ g) = some 1 ↔ 0 < t) := by
  obtain ⟨t, _, hgv, hcat⟩ :=
    aggregate_indicator_core GENRE_CATEGORIES r r' h genre_pairwise_disjoint
      genre_constituents_fresh g cols hg
  refine ⟨t, hgv, hcat, ?_, ?_⟩
  · intro h1
    by_contra hnot
    rw [if_neg hnot] at hcat
    have h01 := Option.some_inj.mp (hcat.symm.trans h1)
    norm_num at h01
  · intro h0
    rw [if_pos h0] at hcat
    exact hcat

/-- C2 witness: on a concrete full row whose rock constituents are 1, 2, 0
(total 3) and whose folklore constituents are 0, 0 (total 0), the appended
columns hold totals 3 and 0 and indicators 1 and 0. -/
theorem genre_indicator_check :
    getCol rowAOut "ROCK Y METAL" = some 3 ∧
    getCol rowAOut "CAT_ROCK Y METAL" = some 1 ∧
    getCol rowAOut "FOLKLORE Y TANGO" = some 0 ∧
    getCol rowAOut "CAT_FOLKLORE Y TANGO" = some 0 := by
  obtain ⟨t, hg, hcat, hiff⟩ :=
    genre_indicator_matches_total rowA rowAOut (by with_unfolding_all rfl)
      "ROCK Y METAL" ["MUSICA8_4", "MUSICA8_5", "MUSICA8_6"] (by decide)
  obtain ⟨u, hg0, hcat0, hiff0⟩ :=
    genre_indicator_matches_total rowA rowAOut (by with_unfolding_all rfl)
      "FOLKLORE Y TANGO" ["MUSICA8_7", "MUSICA8_8"] (by decide)
  have ht : t = 3 := by
    have h3 : getCol rowAOut "ROCK Y METAL" = some 3 := by with_unfolding_all rfl
    exact Option.some_inj.mp ((h3.symm.trans hg).symm)
  have hu : u = 0 := by
    have h0 : getCol rowAOut "FOLKLORE Y TANGO" = some 0 := by
      with_unfolding_all rfl
    exact Option.some_inj.mp ((h0.symm.trans hg0).symm)
  subst ht
  subst hu
  refine ⟨hg, ?_, hg0, ?_⟩
  · rw [if_pos (by norm_num)] at hcat
    exact hcat
  · rw [if_neg (by norm_num)] at hcat0
    exact hcat0

theorem aggregate_missing_core (gs : List (String × List String)) :
    ∀ r : Row,
      (∀ p ∈ gs, ∀ c ∈ p.2, ∀ q ∈ gs, c ≠ q.1 ∧ c ≠ "CAT_" ++ q.1) →
      ∀ p ∈ gs, ∀ c ∈ p.2, getCol r c = none →
        isErr (aggregateGroups gs r) = true := by
  induction gs with
  | nil =>
      intro r _ p hp
      exact absurd hp (List.not_mem_nil p)
  | cons gc rest ih =>
      intro r hconst p hp c hc hmiss
      simp only [aggregateGroups]
      rcases hs : sumCols r gc.2 with e | t₀
      · rfl
      · rcases List.mem_cons.mp hp with hhead | htail
        · subst hhead
          have := sumCols_ok_isSome r p.2 t₀ hs c hc
          rw [hmiss] at this
          exact absurd this (by simp)
        · have hne := hconst p hp c hc gc (List.mem_cons_self gc rest)
          have hconst' : ∀ p' ∈ rest, ∀ c' ∈ p'.2, ∀ q ∈ rest,
              c' ≠ q.1 ∧ c' ≠ "CAT_" ++ q.1 := by
            intro p' hp' c' hc' q hq
            exact hconst p' (List.mem_cons_of_mem gc hp') c' hc' q
              (List.mem_cons_of_mem gc hq)
          refine ih _ hconst' p htail c hc ?_
          rw [getCol_setCol_ne _ _ _ _ hne.2, getCol_setCol_ne _ _ _ _ hne.1]
          exact hmiss

/-- C5 counterexample: on a concrete row lacking the constituent column
`MUSICA8_5`, the genre aggregation of `app.py` lines 64-68 raises a
`KeyError` (here: returns an error naming the missing label) instead of
letting the absent constituent contribute 0. -/
theorem absent_constituent_crash :
    getCol rowMissing "MUSICA8_5" = none ∧
    aggregateGroups GENRE_CATEGORIES rowMissing = .error "MUSICA8_5" :=
  ⟨by decide, by rfl⟩

/-- C5 amended: the aggregation does not tolerate an absent constituent
column — whenever any constituent of any group is missing from the row, the
whole aggregation fails with an error rather than treating the absent column
as 0. -/
theorem absent_constituent_errors (r : Row) (p : String × List String)
    (c : String) (hp : p ∈ GENRE_CATEGORIES) (hc : c ∈ p.2)
    (hmiss : getCol r c = none) :
    isErr (aggregateGroups GENRE_CATEGORIES r) = true :=
  aggregate_missing_core GENRE_CATEGORIES r genre_constituents_fresh p hp c hc
    hmiss

/-- C5 witness: the amended statement applied to the concrete row lacking
`MUSICA8_5`. -/
theorem absent_constituent_errors_check :
    isErr (aggregateGroups GENRE_CATEGORIES rowMissing) = true :=
  absent_constituent_errors rowMissing
    ("ROCK Y METAL", ["MUSICA8_4", "MUSICA8_5", "MUSICA8_6"]) "MUSICA8_5"
    (by decide) (by decide) (by decide)

/-- C7: the genre aggregation is idempotent on the program's group map:
aggregating an already-aggregated row changes no column — in particular the
group totals are recomputed from the untouched atomic columns, never
double-summed. -/
theorem aggregate_idempotent (r r₁ r₂ : Row)
    (h1 : aggregateGroups GENRE_CATEGORIES r = .ok r₁)
    (h2 : aggregateGroups GENRE_CATEGORIES r₁ = .ok r₂) :
    ∀ c, getCol r₂ c = getCol r₁ c := by
  intro c
  by_cases hc : ∀ p ∈ GENRE_CATEGORIES, c ≠ p.1 ∧ c ≠ "CAT_" ++ p.1
  · exact aggregate_preserve GENRE_CATEGORIES r₁ r₂ h2 c hc
  · push_neg at hc
    obtain ⟨p, hp, himp⟩ := hc
    have hpe : (p.1, p.2) ∈ GENRE_CATEGORIES := by
      rw [Prod.mk.eta]
      exact hp
    obtain ⟨t, hsum1, hg1, hcat1⟩ :=
      aggregate_indicator_core GENRE_CATEGORIES r r₁ h1
        genre_pairwise_disjoint genre_constituents_fresh p.1 p.2 hpe
    obtain ⟨t', hsum2, hg2, hcat2⟩ :=
      aggregate_indicator_core GENRE_CATEGORIES r₁ r₂ h2
        genre_pairwise_disjoint genre_constituents_fresh p.1 p.2 hpe
    have hsame : sumCols r₁ p.2 = sumCols r p.2 := by
      refine sumCols_congr r₁ r p.2 ?_
      intro d hd
      exact aggregate_preserve GENRE_CATEGORIES r r₁ h1 d
        (fun q hq => genre_constituents_fresh p hp d hd q hq)
    have htt : t' = t := by
      have := (hsame ▸ hsum2).symm.trans hsum1
      exact (Except.ok.injEq _ _).mp this
    subst htt
    by_cases hc1 : c = p.1
    · rw [hc1, hg1, hg2]
    · rw [himp hc1, hcat1, hcat2]

/-- C7 witness: re-aggregating the already-aggregated concrete row `rowAOut`
leaves every column unchanged; the rock total stays 3. -/
theorem aggregate_idempotent_check :
    getCol rowAOut "ROCK Y METAL" = some 3 ∧
    getCol rowAOut "CAT_ROCK Y METAL" = getCol rowAOut "CAT_ROCK Y METAL" :=
  ⟨by with_unfolding_all rfl,
   aggregate_idempotent rowA rowAOut rowAOut (by with_unfolding_all rfl)
     (by with_unfolding_all rfl) "CAT_ROCK Y METAL"⟩

/-- C3 counterexample: the genre-signal normalization of `app.py` lines 39-41
does not force non-negativity — a cell holding the valid numeric token `-1`
parses and survives as the negative value `-1`. -/
theorem genre_negative_value_survives :
    coerceGenre (RawCell.num (-1)) = -1 ∧
    getRawCol (cleanGenreRow rowNeg) "MUSICA8_4" = some (RawCell.num (-1)) ∧
    ¬ (0 : ℚ) ≤ -1 := by
  refine ⟨rfl, by with_unfolding_all rfl, by norm_num⟩

/-- C3 amended: after normalization, every `MUSICA8_`-column cell is the
numeric parse of the same-named raw cell with invalid or missing cells
replaced by 0, applied independently per column and per row; valid numeric
values — including negative ones — pass through unchanged, and columns not
matching the convention are untouched. -/
theorem genre_coercion_pointwise (r : RawRow) (c : String) :
    (c.startsWith genreColTag = true →
      getRawCol (cleanGenreRow r) c =
        (getRawCol r c).map (fun cell => RawCell.num (coerceGenre cell))) ∧
    (c.startsWith genreColTag = false →
      getRawCol (cleanGenreRow r) c = getRawCol r c) ∧
    (∀ s, coerceGenre (RawCell.text s) = 0) ∧
    coerceGenre RawCell.missing = 0 ∧
    (∀ q, coerceGenre (RawCell.num q) = q) := by
  refine ⟨?_, ?_, fun s => rfl, rfl, fun q => rfl⟩
  · intro hsw
    induction r with
    | nil => rfl
    | cons p t ih =>
        by_cases hk : p.1 = c
        · subst hk
          simp [cleanGenreRow, getRawCol, hsw]
        · by_cases hb : p.1.startsWith genreColTag = true
          · simpa [cleanGenreRow, getRawCol, hb, hk] using ih
          · simpa [cleanGenreRow, getRawCol, hb, hk] using ih
  · intro hsw
    induction r with
    | nil => rfl
    | cons p t ih =>
        by_cases hk : p.1 = c
        · subst hk
          simp [cleanGenreRow, getRawCol, hsw]
        · by_cases hb : p.1.startsWith genreColTag = true
          · simpa [cleanGenreRow, getRawCol, hb, hk] using ih
          · simpa [cleanGenreRow, getRawCol, hb, hk] using ih

/-- C3 witness: the amended statement applied to a concrete raw row, at a
genre column and at the untouched `REGION` column. -/
theorem genre_coercion_pointwise_check :
    getRawCol (cleanGenreRow rowNeg) "MUSICA8_5" =
      (getRawCol rowNeg "MUSICA8_5").map
        (fun cell => RawCell.num (coerceGenre cell)) ∧
    getRawCol (cleanGenreRow rowNeg) "REGION" = getRawCol rowNeg "REGION" :=
  ⟨(genre_coercion_pointwise rowNeg "MUSICA8_5").1 (by with_unfolding_all decide),
   (genre_coercion_pointwise rowNeg "REGION").2.1 (by with_unfolding_all decide)⟩

theorem cleanOne_eq_none (r : RawRecord) :
    cleanOne r = none ↔ toNumericCoerce r.edad = none := by
  cases h : toNumericCoerce r.edad with
  | none => simp [cleanOne, h]
  | some q => simp [cleanOne, h]

theorem loadAndClean_filter (raw : List RawRecord) :
    loadAndClean raw =
      loadAndClean (raw.filter (fun s => (toNumericCoerce s.edad).isSome)) := by
  induction raw with
  | nil => rfl
  | cons r t ih =>
      cases h : toNumericCoerce r.edad with
      | none =>
          have hc : cleanOne r = none := (cleanOne_eq_none r).mpr h
          simpa [loadAndClean, List.filterMap_cons, List.filter_cons, h, hc]
            using ih
      | some q =>
          have hc : cleanOne r ≠ none := by
            rw [Ne, cleanOne_eq_none, h]
            simp
          rcases hrec : cleanOne r with _ | rec
          · exact absurd hrec hc
          · simpa [loadAndClean, List.filterMap_cons, List.filter_cons, h,
              hrec] using ih

theorem totalRegistros_parseable (raw : List RawRecord) :
    totalRegistros raw =
      (raw.filter (fun s => (toNumericCoerce s.edad).isSome)).length := by
  unfold totalRegistros
  induction raw with
  | nil => rfl
  | cons r t ih =>
      cases h : toNumericCoerce r.edad with
      | none =>
          have hc : cleanOne r = none := (cleanOne_eq_none r).mpr h
          simpa [loadAndClean, List.filterMap_cons, List.filter_cons, h, hc]
            using ih
      | some q =>
          have hc : cleanOne r ≠ none := by
            rw [Ne, cleanOne_eq_none, h]
            simp
          rcases hrec : cleanOne r with _ | rec
          · exact absurd hrec hc
          · simpa [loadAndClean, List.filterMap_cons, List.filter_cons, h,
              hrec] using ih

/-- C4: records whose age fails numeric parsing are dropped from the cleaned
table entirely, the record counter of line 110 counts only parseable records,
a table with an unparseable age has a strictly smaller denominator than the
raw table, and every grouped percentage is computed over the rows actually
present in the cleaned table. -/
theorem age_drop_denominator (raw : List RawRecord) :
    loadAndClean raw =
      loadAndClean (raw.filter (fun s => (toNumericCoerce s.edad).isSome)) ∧
    totalRegistros raw =
      (raw.filter (fun s => (toNumericCoerce s.edad).isSome)).length ∧
    ((∃ r ∈ raw, toNumericCoerce r.edad = none) →
      totalRegistros raw < raw.length) ∧
    (∀ g, rockByAge (loadAndClean raw) g =
      rockByAge (loadAndClean
        (raw.filter (fun s => (toNumericCoerce s.edad).isSome))) g) := by
  refine ⟨loadAndClean_filter raw, totalRegistros_parseable raw, ?_,
    fun g => by rw [← loadAndClean_filter raw]⟩
  rintro ⟨r, hr, hbad⟩
  rw [totalRegistros_parseable raw]
  refine List.length_filter_lt_length_iff_exists.mpr ⟨r, hr, ?_⟩
  simp [hbad]

/-- C4 witness: on a concrete raw table of three records, one of which has an
unparseable age, the cleaned table has two rows — fewer than the raw table. -/
theorem age_drop_denominator_check :
    totalRegistros rawSample < rawSample.length ∧
    totalRegistros rawSample = 2 := by
  refine ⟨(age_drop_denominator rawSample).2.2.1 ?_, by with_unfolding_all rfl⟩
  exact ⟨rawBad, List.mem_cons_of_mem _ (List.mem_cons_self _ _), rfl⟩

/-- C6: in the percentage-of-row-total summarization of `app.py` lines
156-157, every region whose summed row-total is non-zero gets percentages
summing exactly to 100, and a region with a zero row-total gets the defined
placeholder row (all zeros here, standing for the pandas `NaN` placeholder)
instead of an error. -/
theorem percent_of_row_total_sums (rows : List (String × GenreVec))
    (reg : String) :
    ((genreRegionSum rows reg).rowTotal ≠ 0 →
      (genreRegionPercent rows reg).rowTotal = 100) ∧
    ((genreRegionSum rows reg).rowTotal = 0 →
      genreRegionPercent rows reg = GenreVec.null) := by
  constructor
  · intro h
    unfold GenreVec.rowTotal at h
    unfold genreRegionPercent percentOfRowTotal GenreVec.rowTotal
    field_simp
    ring
  · intro h
    unfold genreRegionPercent percentOfRowTotal GenreVec.null
    rw [h]
    norm_num

/-- C6 witness: on concrete region rows, the Pampeana percentages sum to 100
and the all-zero NOA region yields the placeholder row. -/
theorem percent_of_row_total_sums_check :
    (genreRegionPercent regionRows "Pampeana").rowTotal = 100 ∧
    genreRegionPercent regionRows "NOA" = GenreVec.null :=
  ⟨(percent_of_row_total_sums regionRows "Pampeana").1
      (by with_unfolding_all decide),
   (percent_of_row_total_sums regionRows "NOA").2
      (by with_unfolding_all decide)⟩

theorem filter_erase_of_neg {α : Type} [DecidableEq α] (p : α → Bool) (a : α)
    (l : List α) (h : p a = false) :
    (l.erase a).filter p = l.filter p := by
  induction l with
  | nil => rfl
  | cons b t ih =>
      by_cases hb : b = a
      · subst hb
        simp [List.erase_cons, List.filter_cons, h]
      · simp only [List.erase_cons, beq_iff_eq, if_neg hb, List.filter_cons, ih]

theorem filterMap_erase_of_none {α β : Type} [DecidableEq α] (f : α → Option β)
    (a : α) (l : List α) (h : f a = none) :
    (l.erase a).filterMap f = l.filterMap f := by
  induction l with
  | nil => rfl
  | cons b t ih =>
      by_cases hb : b = a
      · subst hb
        simp [List.erase_cons, List.filterMap_cons, h]
      · simp only [List.erase_cons, beq_iff_eq, if_neg hb,
          List.filterMap_cons, ih]

theorem cleanOne_grupo (r : RawRecord) (rec : Record)
    (h : cleanOne r = some rec) : rec.grupo = age_group rec.edad := by
  cases hq : toNumericCoerce r.edad with
  | none => simp [cleanOne, hq] at h
  | some q =>
      simp only [cleanOne, hq] at h
      rw [← Option.some_inj.mp h]

/-- C8: grouped summarization excludes rows whose grouping key is
null/unclassified: such a row belongs to no group, removing it changes no
group's rows, sums, means or key set, the key set never contains a phantom
bucket (every key is witnessed by a row with that non-null key), and a
cleaned record of age 130 has a null key, hence contributes to no
age-grouped aggregate. -/
theorem null_key_excluded (tbl : List Record) (rec : Record)
    (hmem : rec ∈ tbl) (hnull : rec.grupo = none) :
    (∀ g, rec ∉ groupRows tbl g) ∧
    (∀ g ∈ groupKeys tbl, ∃ x ∈ tbl, x.grupo = some g) ∧
    (groupKeys (tbl.erase rec) = groupKeys tbl) ∧
    (∀ g, groupRows (tbl.erase rec) g = groupRows tbl g) ∧
    (∀ g, groupedSumRock (tbl.erase rec) g = groupedSumRock tbl g ∧
      rockByAge (tbl.erase rec) g = rockByAge tbl g) ∧
    (∀ r' rec', cleanOne r' = some rec' → rec'.edad = 130 →
      rec'.grupo = none) := by
  have hrows : ∀ g, groupRows (tbl.erase rec) g = groupRows tbl g := by
    intro g
    unfold groupRows
    exact filter_erase_of_neg _ rec tbl (by simp [hnull])
  refine ⟨?_, ?_, ?_, hrows, ?_, ?_⟩
  · intro g hg
    have := (List.mem_filter.mp hg).2
    rw [hnull] at this
    exact absurd this (by simp)
  · intro g hg
    obtain ⟨x, hx, hgx⟩ := List.mem_filterMap.mp (List.mem_dedup.mp hg)
    exact ⟨x, hx, hgx⟩
  · unfold groupKeys
    rw [filterMap_erase_of_none _ rec tbl hnull]
  · intro g
    unfold groupedSumRock rockByAge
    rw [hrows g]
    exact ⟨rfl, rfl⟩
  · intro r' rec' hclean h130
    rw [cleanOne_grupo r' rec' hclean, h130]
    decide

/-- C8 witness: in a concrete table holding one 18-29 record and one record
with a null band, the null-keyed record is in no group and erasing it leaves
the key set unchanged. -/
theorem null_key_excluded_check :
    recNull ∉ groupRows tblSample "18-29" ∧
    groupKeys (tblSample.erase recNull) = groupKeys tblSample := by
  have h := null_key_excluded tblSample recNull
    (List.mem_cons_of_mem _ (List.mem_cons_self _ _)) rfl
  exact ⟨h.1 "18-29", h.2.2.1⟩

/-- C9 counterexample: on a concrete cleaned table whose only occupied band
is 18-29, the regression receives a single point (fewer than two distinct
x-values), yet `fitOLS` returns a present numeric model — slope 0, intercept
100 — instead of surfacing a result-absent state; `preferencia5` is likewise
a present numeric value. -/
theorem degenerate_fit_numeric_result :
    (regressionData tblOneBand).length = 1 ∧
    fitOLS (regressionData tblOneBand) = .ok (100, 0) ∧
    preferencia5 tblOneBand = .ok 100 := by
  refine ⟨by with_unfolding_all rfl, by with_unfolding_all rfl,
    by with_unfolding_all rfl⟩

/-- C9 amended: the code has no degenerate-input handling for the trend fit:
with exactly one regression point the fit silently returns the numeric model
(slope 0, intercept equal to that point's y), and only the zero-point case
fails — as an unhandled error of the fitting step, not as a surfaced
result-absent state. -/
theorem degenerate_fit_unguarded :
    (∀ x y : ℚ, fitOLS [(x, y)] = .ok (y, 0)) ∧
    isErr (fitOLS []) = true := by
  constructor
  · intro x y
    unfold fitOLS
    rw [if_neg (by simp)]
    norm_num
  · rfl

/-- C10: every regression point pairs the fixed midpoint of one of the four
mapped bands (x-midpoints 23.5, 39.5, 57.0, 70.0) with that band's preference
percentage, the band must be present among the grouped keys, the band 13-17
has no midpoint mapping so it never contributes a point, and the future
projection is evaluated at the mean cleaned age plus 5. -/
theorem regression_points_config (tbl : List Record) (pt : ℚ × ℚ)
    (h : pt ∈ regressionData tbl) :
    (∃ g, g ≠ "13-17" ∧ (g, pt.1) ∈ age_group_mapping ∧ g ∈ groupKeys tbl ∧
      pt.2 = rockByAge tbl g) ∧
    pt.1 ∈ [(47 : ℚ) / 2, 79 / 2, 57, 70] ∧
    (∀ x : ℚ, ("13-17", x) ∉ age_group_mapping) ∧
    edad5 tbl = meanEdad tbl + 5 := by
  have hnone : ∀ x : ℚ, ("13-17", x) ∉ age_group_mapping := by
    intro x hx
    simp only [age_group_mapping, List.mem_cons, List.not_mem_nil,
      or_false] at hx
    rcases hx with h1 | h1 | h1 | h1 <;>
      simp only [Prod.mk.injEq] at h1 <;>
      exact absurd h1.1 (by decide)
  unfold regressionData at h
  obtain ⟨p, hp, hif⟩ := List.mem_filterMap.mp h
  by_cases hmem : p.1 ∈ groupKeys tbl
  · rw [if_pos hmem] at hif
    have hpt : pt = (p.2, rockByAge tbl p.1) := (Option.some_inj.mp hif).symm
    subst hpt
    refine ⟨⟨p.1, ?_, ?_, hmem, rfl⟩, ?_, hnone, rfl⟩
    · intro h13
      exact hnone p.2 (by rw [← h13, Prod.mk.eta]; exact hp)
    · show (p.1, p.2) ∈ age_group_mapping
      rw [Prod.mk.eta]
      exact hp
    · show p.2 ∈ [(47 : ℚ) / 2, 79 / 2, 57, 70]
      simp only [age_group_mapping, List.mem_cons, List.not_mem_nil,
        or_false] at hp
      rcases hp with h1 | h1 | h1 | h1 <;>
        rw [congrArg Prod.snd h1] <;>
        simp [List.mem_cons]
  · rw [if_neg hmem] at hif
    exact absurd hif (by simp)

/-- C10 witness: on the concrete one-band table, the theorem applies to the
single produced point (23.5, 100). -/
theorem regression_points_config_check :
    ((47 : ℚ) / 2, (100 : ℚ)).1 ∈ [(47 : ℚ) / 2, 79 / 2, 57, 70] ∧
    edad5 tblOneBand = meanEdad tblOneBand + 5 := by
  have hmem : ((47 : ℚ) / 2, (100 : ℚ)) ∈ regressionData tblOneBand := by
    with_unfolding_all decide
  exact ⟨(regression_points_config tblOneBand _ hmem).2.1,
    (regression_points_config tblOneBand _ hmem).2.2.2⟩
